import Mathlib

/-!
Verification of the `ddl` data description language against its
natural-language specification.

The development has three parts, mirroring the three generations of
checker/interpreter code present in the repository:

* `DepCore` — the dependently-typed core's format interpreter
  (`src/semantics/parser.rs`).
* `OldCheck` — the older kind/type checker (`src/check.rs`).
* `BinHost` — the host/binary split checker (`src/syntax/check/mod.rs`).
-/

namespace DepCore

/-- A byte read from the byte source. -/
abbrev Byte := Fin 256

/-- `Literal` from `syntax::core` as used by `semantics/parser.rs`:
integer literals are arbitrary precision (`Int`); float literals are kept
as their raw bit patterns, which is faithful because the interpreter only
bit-reinterprets the bytes it reads and never computes with floats. -/
inductive Literal where
  | int (n : Int)
  | f32 (bits : Nat)
  | f64 (bits : Nat)
  | bool (b : Bool)
deriving DecidableEq

/-- `Head` from `syntax::core`: a neutral head is a global item name, a
free/bound variable, or an extern. -/
inductive Head where
  | global (n : String)
  | var (x : String)
  | ext (n : String)
deriving DecidableEq

mutual
/-- `Neutral` from `syntax::core`: a head stuck under an eliminator.
Only the constructor shapes matched by `semantics/parser.rs`
(`Head`, `If`, `Proj`, `Case`) are relevant; payloads follow the
spec's description of neutral forms (§3). -/
inductive Neutral where
  | head (h : Head)
  | ifte (c t f : Value)
  | proj (v : Value) (l : String)
  | case (v : Value) (arms : List Value)

/-- `Value` from `syntax::core`, the weak-head-normal forms dispatched on
by `parse` in `semantics/parser.rs`: universes, host int types, literals,
pi/lam closures, record values, the empty record, arrays, dependent
record types, the empty record type, and neutrals (head + spine). -/
inductive Value where
  | universe (n : Nat)
  | intType (lo hi : Option Value)
  | lit (l : Literal)
  | pi (x : String) (a b : Value)
  | lam (x : String) (a b : Value)
  | record (l x : String) (hd tl : Value)
  | recordEmpty
  | array (elems : List Value)
  | recordType (l x : String) (ann body : Value)
  | recordTypeEmpty
  | neutral (n : Neutral) (spine : List Value)
end

/-- `InternalError` from the semantics module, as surfaced by
`semantics/parser.rs` (only `UnexpectedBoundVar` is reachable there). -/
inductive InternalError where
  | unexpectedBoundVar (x : String)
deriving DecidableEq

/-- `ParseError` from `semantics/parser.rs`. `Io` is produced when the
byte source runs out mid-read (the only I/O failure the byte-list model
of a seekable reader can produce). -/
inductive ParseError where
  | invalidType (ty : Value)
  | internal (e : InternalError)
  | badArrayIndex (v : Value)
  | io

/-- Outcome of a run of the interpreter. `panicked` models a Rust panic
(the `to_usize().unwrap()` on array lengths, marked FIXME in the source);
`noFuel` is an artifact of the fuel-indexed embedding of the Rust
recursion and never corresponds to a source behaviour. -/
inductive PResult where
  | ok (v : Value) (rest : List Byte)
  | err (e : ParseError)
  | panicked
  | noFuel

/-- Outcome of parsing a fixed number of array elements. -/
inductive ElemsResult where
  | ok (vs : List Value) (rest : List Byte)
  | err (e : ParseError)
  | panicked
  | noFuel

/-- The type-checking environment threaded through `parse` and
`normalize`. Modelled from the spec: §4.3 maps global names to their
types and optional definitions; only the definitions matter to the
semantics. The claims proved here never exercise alias unfolding. -/
abbrev TcEnv := List (String × Value)

/-- Modelled from the spec: applying a value to a spine of eliminator
arguments (§3, neutral forms). A neutral head absorbs the arguments into
its spine; an empty spine is the identity. Applying any other value to a
non-empty spine only arises on ill-typed input, which the spec (§4.2)
leaves unspecified; the model leaves it stuck on an extern head. -/
def spineApp : Value → List Value → Value
  | v, [] => v
  | .neutral ne sp, args => .neutral ne (sp ++ args)
  | v, args => .neutral (.head (.ext "ill-typed application")) (v :: args)

mutual
/-- Modelled from the spec: capture-avoiding substitution of a value for
a named binder (§4.1, `substs` in `semantics/parser.rs`). Binders carry
unique names (moniker's freshness discipline), so shadowed binders stop
the substitution. A variable occurrence is a neutral with that variable
as head; the substituted value absorbs the occurrence's spine. -/
def substVal (x : String) (v : Value) : Value → Value
  | .universe n => .universe n
  | .intType lo hi => .intType (substOpt x v lo) (substOpt x v hi)
  | .lit l => .lit l
  | .pi y a b => .pi y (substVal x v a) (if y = x then b else substVal x v b)
  | .lam y a b => .lam y (substVal x v a) (if y = x then b else substVal x v b)
  | .record l y hd tl =>
      .record l y (substVal x v hd) (if y = x then tl else substVal x v tl)
  | .recordEmpty => .recordEmpty
  | .array es => .array (substList x v es)
  | .recordType l y ann body =>
      .recordType l y (substVal x v ann) (if y = x then body else substVal x v body)
  | .recordTypeEmpty => .recordTypeEmpty
  | .neutral (.head (.var y)) sp =>
      if y = x then spineApp v (substList x v sp)
      else .neutral (.head (.var y)) (substList x v sp)
  | .neutral (.head (.global n)) sp => .neutral (.head (.global n)) (substList x v sp)
  | .neutral (.head (.ext n)) sp => .neutral (.head (.ext n)) (substList x v sp)
  | .neutral (.ifte c t f) sp =>
      .neutral (.ifte (substVal x v c) (substVal x v t) (substVal x v f)) (substList x v sp)
  | .neutral (.proj u l) sp => .neutral (.proj (substVal x v u) l) (substList x v sp)
  | .neutral (.case u arms) sp =>
      .neutral (.case (substVal x v u) (substList x v arms)) (substList x v sp)

/-- Substitution on an optional value (int-type bounds). -/
def substOpt (x : String) (v : Value) : Option Value → Option Value
  | none => none
  | some u => some (substVal x v u)

/-- Substitution on a list of values (spines, array elements, arms). -/
def substList (x : String) (v : Value) : List Value → List Value
  | [] => []
  | u :: us => substVal x v u :: substList x v us
end

mutual
/-- Modelled from the spec: the normaliser (§4.2 `normalize`). Reduces
`if` whose scrutinee has become a boolean literal (the only redex
substitution can create in a weak-head-normal value) and normalises
structurally everywhere else. Global heads stay stuck, as the spec
prescribes for struct items; the claims proved here involve no alias
globals, so no unfolding is required. -/
def normalize (env : TcEnv) : Value → Value
  | .universe n => .universe n
  | .intType lo hi => .intType (normOpt env lo) (normOpt env hi)
  | .lit l => .lit l
  | .pi y a b => .pi y (normalize env a) (normalize env b)
  | .lam y a b => .lam y (normalize env a) (normalize env b)
  | .record l y hd tl => .record l y (normalize env hd) (normalize env tl)
  | .recordEmpty => .recordEmpty
  | .array es => .array (normList env es)
  | .recordType l y ann body => .recordType l y (normalize env ann) (normalize env body)
  | .recordTypeEmpty => .recordTypeEmpty
  | .neutral (.ifte c t f) sp =>
      match normalize env c with
      | .lit (.bool true) => spineApp (normalize env t) (normList env sp)
      | .lit (.bool false) => spineApp (normalize env f) (normList env sp)
      | c' => .neutral (.ifte c' (normalize env t) (normalize env f)) (normList env sp)
  | .neutral (.head h) sp => .neutral (.head h) (normList env sp)
  | .neutral (.proj u l) sp => .neutral (.proj (normalize env u) l) (normList env sp)
  | .neutral (.case u arms) sp =>
      .neutral (.case (normalize env u) (normList env arms)) (normList env sp)

/-- Normalisation on an optional value. -/
def normOpt (env : TcEnv) : Option Value → Option Value
  | none => none
  | some u => some (normalize env u)

/-- Normalisation on a list of values. -/
def normList (env : TcEnv) : List Value → List Value
  | [] => []
  | u :: us => normalize env u :: normList env us
end

/-- Take exactly `w` bytes off the front of the source; `none` models the
I/O error a partial read raises (spec §4.4: EOF mid-field fails with the
I/O error, the stream considered consumed up to the failure point). -/
def readBytes (w : Nat) (s : List Byte) : Option (List Byte × List Byte) :=
  if w ≤ s.length then some (s.take w, s.drop w) else none

/-- Little-endian value of a byte string (first byte least significant),
as computed by `byteorder`'s `read_uN::<LittleEndian>`. -/
def leNat (bs : List Byte) : Nat :=
  bs.foldr (fun b acc => b.val + 256 * acc) 0

/-- Big-endian value of a byte string (first byte most significant),
as computed by `byteorder`'s `read_uN::<BigEndian>`. -/
def beNat (bs : List Byte) : Nat :=
  bs.foldl (fun acc b => 256 * acc + b.val) 0

/-- Two's-complement reinterpretation of a `bits`-wide unsigned value,
as performed by `read_iN`. -/
def toSigned (bits n : Nat) : Int :=
  if n < 2 ^ (bits - 1) then (n : Int) else (n : Int) - 2 ^ bits

/-- `read_uN::<E>` followed by lifting into an `Int` literal
(`Literal::Int(... .into())` in `semantics/parser.rs`). -/
def readUIntLit (w : Nat) (little : Bool) (s : List Byte) : PResult :=
  match readBytes w s with
  | some (bs, rest) => .ok (.lit (.int (if little then leNat bs else beNat bs))) rest
  | none => .err .io

/-- `read_iN::<E>` followed by lifting into an `Int` literal. -/
def readSIntLit (w : Nat) (little : Bool) (s : List Byte) : PResult :=
  match readBytes w s with
  | some (bs, rest) =>
      .ok (.lit (.int (toSigned (8 * w) (if little then leNat bs else beNat bs)))) rest
  | none => .err .io

/-- `read_f32::<E>`: four bytes bit-reinterpreted as an `F32` literal. -/
def readF32Lit (little : Bool) (s : List Byte) : PResult :=
  match readBytes 4 s with
  | some (bs, rest) => .ok (.lit (.f32 (if little then leNat bs else beNat bs))) rest
  | none => .err .io

/-- `read_f64::<E>`: eight bytes bit-reinterpreted as an `F64` literal. -/
def readF64Lit (little : Bool) (s : List Byte) : PResult :=
  match readBytes 8 s with
  | some (bs, rest) => .ok (.lit (.f64 (if little then leNat bs else beNat bs))) rest
  | none => .err .io

/-- The primitive dispatch table of `parse` in `semantics/parser.rs`
(the arms for a global head with an empty spine), in source order. An
unknown name is `InvalidType`, carrying the neutral the name came from. -/
def parsePrim (n : String) (s : List Byte) : PResult :=
  match n with
  | "U8" => readUIntLit 1 true s
  | "U16Le" => readUIntLit 2 true s
  | "U16Be" => readUIntLit 2 false s
  | "U32Le" => readUIntLit 4 true s
  | "U32Be" => readUIntLit 4 false s
  | "U64Le" => readUIntLit 8 true s
  | "U64Be" => readUIntLit 8 false s
  | "S8" => readSIntLit 1 true s
  | "S16Le" => readSIntLit 2 true s
  | "S16Be" => readSIntLit 2 false s
  | "S32Le" => readSIntLit 4 true s
  | "S32Be" => readSIntLit 4 false s
  | "S64Le" => readSIntLit 8 true s
  | "S64Be" => readSIntLit 8 false s
  | "F32Le" => readF32Lit true s
  | "F32Be" => readF32Lit false s
  | "F64Le" => readF64Lit true s
  | "F64Be" => readF64Lit false s
  | _ => .err (.invalidType (.neutral (.head (.global n)) []))

/-- `usize::MAX` on the 64-bit targets the crate builds for. -/
def usizeMax : Nat := 2 ^ 64 - 1

/-- `num_traits::ToPrimitive::to_usize` on an arbitrary-precision
integer: `some` exactly when the value fits in a machine-sized count. -/
def toUsize (n : Int) : Option Nat :=
  if 0 ≤ n ∧ n ≤ (usizeMax : Int) then some n.toNat else none

/-- Parse `count` copies of an element format sequentially
(`(0..len).map(|_| parse(...)).collect()` in `semantics/parser.rs`),
with the element parser abstracted. -/
def parseElems (p : List Byte → PResult) : Nat → List Byte → ElemsResult
  | 0, s => .ok [] s
  | count + 1, s =>
      match p s with
      | .ok v s' =>
          match parseElems p count s' with
          | .ok vs s'' => .ok (v :: vs) s''
          | .err e => .err e
          | .panicked => .panicked
          | .noFuel => .noFuel
      | .err e => .err e
      | .panicked => .panicked
      | .noFuel => .noFuel

/-- The format interpreter `parse` of `semantics/parser.rs`, indexed by
fuel to make the Rust recursion (which terminates on well-typed formats)
a total Lean function. Dispatch is on the weak-head-normal type:
non-format values fail `InvalidType`; a dependent record type parses the
field, substitutes the parsed value for the binder in the tail,
normalises, and recurses; the empty record type reads nothing; global
heads are either the primitive table (empty spine) or `Array` applied to
a length and an element format, whose length literal is downcast with
`to_usize().unwrap()` — the `unwrap` is the modelled panic; a variable
head is the internal `UnexpectedBoundVar` error; extern heads and
eliminator-stuck neutrals fail `InvalidType`. -/
def parse (env : TcEnv) : Nat → Value → List Byte → PResult
  | 0, _, _ => .noFuel
  | fuel + 1, ty, s =>
      match ty with
      | .universe n => .err (.invalidType (.universe n))
      | .intType lo hi => .err (.invalidType (.intType lo hi))
      | .lit l => .err (.invalidType (.lit l))
      | .pi x a b => .err (.invalidType (.pi x a b))
      | .lam x a b => .err (.invalidType (.lam x a b))
      | .record l x hd tl => .err (.invalidType (.record l x hd tl))
      | .recordEmpty => .err (.invalidType .recordEmpty)
      | .array es => .err (.invalidType (.array es))
      | .recordType l x ann body =>
          match parse env fuel ann s with
          | .ok annValue s1 =>
              match parse env fuel (normalize env (substVal x annValue body)) s1 with
              | .ok bodyValue s2 => .ok (.record l x annValue bodyValue) s2
              | .err e => .err e
              | .panicked => .panicked
              | .noFuel => .noFuel
          | .err e => .err e
          | .panicked => .panicked
          | .noFuel => .noFuel
      | .recordTypeEmpty => .ok .recordEmpty s
      | .neutral (.head (.global n)) spine =>
          match spine with
          | [] => parsePrim n s
          | [len, elemTy] =>
              if n = "Array" then
                match len with
                | .lit (.int k) =>
                    match toUsize k with
                    | some count =>
                        match parseElems (fun s2 => parse env fuel elemTy s2) count s with
                        | .ok vs rest => .ok (.array vs) rest
                        | .err e => .err e
                        | .panicked => .panicked
                        | .noFuel => .noFuel
                    | none => .panicked
                | _ => .err (.badArrayIndex len)
              else .err (.invalidType (.neutral (.head (.global n)) [len, elemTy]))
          | _ => .err (.invalidType (.neutral (.head (.global n)) spine))
      | .neutral (.head (.var x)) _spine =>
          .err (.internal (.unexpectedBoundVar x))
      | .neutral (.head (.ext e)) spine =>
          .err (.invalidType (.neutral (.head (.ext e)) spine))
      | .neutral (.ifte c t f) spine =>
          .err (.invalidType (.neutral (.ifte c t f) spine))
      | .neutral (.proj u l) spine =>
          .err (.invalidType (.neutral (.proj u l) spine))
      | .neutral (.case u arms) spine =>
          .err (.invalidType (.neutral (.case u arms) spine))

/-- The byte widths of the primitive format table, in the order of the
dispatch arms in `semantics/parser.rs`; `none` for names outside it. -/
def primWidth (n : String) : Option Nat :=
  match n with
  | "U8" => some 1
  | "U16Le" => some 2
  | "U16Be" => some 2
  | "U32Le" => some 4
  | "U32Be" => some 4
  | "U64Le" => some 8
  | "U64Be" => some 8
  | "S8" => some 1
  | "S16Le" => some 2
  | "S16Be" => some 2
  | "S32Le" => some 4
  | "S32Be" => some 4
  | "S64Le" => some 8
  | "S64Be" => some 8
  | "F32Le" => some 4
  | "F32Be" => some 4
  | "F64Le" => some 8
  | "F64Be" => some 8
  | _ => none

/-- Format descriptions whose total byte size is implied by the type
alone (spec §6.2: primitives of fixed width, records of contiguous
fields with no padding, arrays of `n` contiguous elements). Field
binders in such chains are not referred to by later fields, so the
chain places the fields back to back. -/
inductive Flat where
  | prim (n : String)
  | arr (count : Nat) (elem : Flat)
  | field (l x : String) (ty rest : Flat)
  | empty

/-- The weak-head-normal type a flat description denotes. -/
def Flat.toValue : Flat → Value
  | .prim n => .neutral (.head (.global n)) []
  | .arr k e => .neutral (.head (.global "Array")) [.lit (.int k), e.toValue]
  | .field l x t r => .recordType l x t.toValue r.toValue
  | .empty => .recordTypeEmpty

/-- The byte size implied by a flat description: primitive widths,
`count` times the element size for arrays, and the sum of the field
sizes for record chains. -/
def Flat.size : Flat → Option Nat
  | .prim n => primWidth n
  | .arr k e => (Flat.size e).map fun w => k * w
  | .field _ _ t r =>
      match Flat.size t, Flat.size r with
      | some a, some b => some (a + b)
      | _, _ => none
  | .empty => some 0

/-- The primitive format `U8` as a weak-head-normal type. -/
def u8V : Value := .neutral (.head (.global "U8")) []

/-- The primitive format `U16Le` as a weak-head-normal type. -/
def u16leV : Value := .neutral (.head (.global "U16Le")) []

/-- The primitive format `U16Be` as a weak-head-normal type. -/
def u16beV : Value := .neutral (.head (.global "U16Be")) []

/-- `Array n τ` as a weak-head-normal type: the `Array` head applied to
a length literal and an element format. -/
def arrayV (n : Int) (elem : Value) : Value :=
  .neutral (.head (.global "Array")) [.lit (.int n), elem]

/-- The dependent record type for `struct { len: U8, data: Array len U8 }`
after elaboration and evaluation: the `data` field's type mentions the
`len` binder. -/
def lenDataStruct : Value :=
  .recordType "len" "len" u8V
    (.recordType "data" "data"
      (.neutral (.head (.global "Array")) [.neutral (.head (.var "len")) [], u8V])
      .recordTypeEmpty)

/-- The record value `parse` produces for `lenDataStruct` on the bytes
`[03, 0A, 0B, 0C, …]`. -/
def lenDataResult : Value :=
  .record "len" "len" (.lit (.int 3))
    (.record "data" "data"
      (.array [.lit (.int 10), .lit (.int 11), .lit (.int 12)]) .recordEmpty)

/-- The weak-head-normal type values on which `parse` fails with
`InvalidType`: every head that is not a primitive-table global with an
empty spine, not the `Array` head applied to exactly two arguments, not
a dependent record type or the empty record type, and not a neutral
with a variable head (which instead raises the internal
`UnexpectedBoundVar` error). -/
def failsInvalidFormat : Value → Bool
  | .universe _ => true
  | .intType _ _ => true
  | .lit _ => true
  | .pi _ _ _ => true
  | .lam _ _ _ => true
  | .record _ _ _ _ => true
  | .recordEmpty => true
  | .array _ => true
  | .recordType _ _ _ _ => false
  | .recordTypeEmpty => false
  | .neutral (.head (.global n)) spine =>
      match spine with
      | [] => (primWidth n).isNone
      | [_, _] => !(n == "Array")
      | _ => true
  | .neutral (.head (.var _)) _ => false
  | .neutral (.head (.ext _)) _ => true
  | .neutral (.ifte _ _ _) _ => true
  | .neutral (.proj _ _) _ => true
  | .neutral (.case _ _) _ => true

end DepCore

namespace OldCheck

/-- Byte-position source spans (`source::Span`), carried by terms and
errors of `src/check.rs`; semantically inert. -/
structure Span where
  lo : Nat
  hi : Nat
deriving DecidableEq

/-- `ast::Endianness`. -/
inductive Endianness where
  | little
  | big
  | target
deriving DecidableEq

/-- `ast::TypeConst` as used by `src/check.rs`: `Bool`, `UnknownInt`
(the type of undefaulted integer literals), and sized unsigned, signed
and float types. -/
inductive TypeConst where
  | bool
  | unknownInt
  | u (bytes : Nat) (e : Endianness)
  | i (bytes : Nat) (e : Endianness)
  | f (bytes : Nat) (e : Endianness)
deriving DecidableEq

/-- `ast::Unop`. -/
inductive Unop where
  | neg
  | not
deriving DecidableEq

/-- `ast::Binop`. -/
inductive Binop where
  | or
  | and
  | eq
  | ne
  | le
  | lt
  | gt
  | ge
  | add
  | sub
  | mul
  | div
deriving DecidableEq

/-- `ast::Const` as matched by `type_of`: booleans and unsigned integer
literals. -/
inductive Const where
  | bool (b : Bool)
  | uint (n : Nat)
deriving DecidableEq

/-- `ast::Expr` as used by `src/check.rs`. -/
inductive Expr where
  | const (sp : Span) (c : Const)
  | var (sp : Span) (name : String)
  | unop (sp : Span) (op : Unop) (e : Expr)
  | binop (sp : Span) (op : Binop) (l r : Expr)
deriving DecidableEq

/-- `ast::Type` as used by `src/check.rs`; struct fields are
`(span, label, type)` triples (`ast::Field`). `Type::Where` carries the
constrained type, the bound parameter name and the predicate. -/
inductive Ty where
  | const (c : TypeConst)
  | var (sp : Span) (name : String)
  | union (sp : Span) (tys : List Ty)
  | struct (sp : Span) (fields : List (Span × String × Ty))
  | array (sp : Span) (ty : Ty) (size : Expr)
  | whereTy (sp : Span) (ty : Ty) (param : String) (pred : Expr)

/-- `Kind`: the only kind is `Type`. -/
inductive Kind where
  | type
deriving DecidableEq

/-- `TypeError` from `src/check.rs`. -/
inductive TypeError where
  | unboundVariable (sp : Span) (name : String)
deriving DecidableEq

/-- `KindError` from `src/check.rs`. Note there is no duplicate-field
variant in this taxonomy. -/
inductive KindError where
  | unboundType (sp : Span) (name : String)
  | arraySizeExpectedUInt (sp : Span) (ty : Ty)
  | arraySizeType (sp : Span) (e : TypeError)
  | wherePredicateExpectedBool (sp : Span) (ty : Ty)
  | wherePredicateType (sp : Span) (e : TypeError)

/-- Outcome of a checking function: `Ok`, `Err`, or the `unimplemented!`
panic reached by several arms of the expression rules. -/
inductive TcResult (α : Type) where
  | ok (a : α)
  | err (e : TypeError)
  | unimpl

/-- Outcome of a kinding function. -/
inductive KcResult (α : Type) where
  | ok (a : α)
  | err (e : KindError)
  | unimpl

/-- Modelled from the spec: the type-checking environment (`env::Env`,
whose source file is not part of the repository snapshot). Per §4.3 and
the design notes (§9), environments map names to types and grow by
functional extension; `tys` holds type definitions (`add_ty` /
`lookup_ty`) and `bindings` holds expression bindings (`add_binding` /
`lookup_binding`), resolved to the most recent entry. `extend` starts a
child environment sharing the parent's entries. -/
structure Env where
  tys : List (String × Ty)
  bindings : List (String × Ty)

/-- `Env::lookup_ty`. -/
def Env.lookupTy (env : Env) (n : String) : Option Ty :=
  (env.tys.find? fun p => p.1 = n).map fun p => p.2

/-- `Env::lookup_binding`. -/
def Env.lookupBinding (env : Env) (n : String) : Option Ty :=
  (env.bindings.find? fun p => p.1 = n).map fun p => p.2

/-- `Env::extend`. -/
def Env.extend (env : Env) : Env := env

/-- `Env::add_binding`. -/
def Env.addBinding (env : Env) (n : String) (t : Ty) : Env :=
  { env with bindings := (n, t) :: env.bindings }

/-- `Env::add_ty`. -/
def Env.addTy (env : Env) (n : String) (t : Ty) : Env :=
  { env with tys := (n, t) :: env.tys }

/-- The empty default environment (no expression bindings and no type
definitions that the claims rely on). -/
def Env.empty : Env := ⟨[], []⟩

mutual
/-- `Env::type_of` (`Γ ⊢ e : τ`) from `src/check.rs`: booleans type as
`Bool`, integer literals as `UnknownInt`, variables by
`lookup_binding`, and operators via the four helper rules. -/
def typeOf (env : Env) : Expr → TcResult Ty
  | .const _ (.bool _) => .ok (.const .bool)
  | .const _ (.uint _) => .ok (.const .unknownInt)
  | .var sp name =>
      match env.lookupBinding name with
      | some ty => .ok ty
      | none => .err (.unboundVariable sp name)
  | .unop _ op value =>
      match op with
      | .not => typeOfBoolUnop env value
      | .neg => typeOfIntUnop env value
  | .binop _ op lhs rhs =>
      match op with
      | .or | .and => typeOfBoolBinop env lhs rhs
      | .eq | .ne | .le | .lt | .gt | .ge => typeOfComparisonBinop env lhs rhs
      | .add | .sub | .mul | .div => typeOfIntBinop env lhs rhs
termination_by e => sizeOf e

/-- `Env::type_of_bool_unop`: the operand must be `Bool`; anything else
hits `unimplemented!`. -/
def typeOfBoolUnop (env : Env) (value : Expr) : TcResult Ty :=
  match typeOf env value with
  | .ok (.const .bool) => .ok (.const .bool)
  | .ok _ => .unimpl
  | .err e => .err e
  | .unimpl => .unimpl
termination_by sizeOf value + 1

/-- `Env::type_of_int_unop`: the operand must be integer-shaped. -/
def typeOfIntUnop (env : Env) (value : Expr) : TcResult Ty :=
  match typeOf env value with
  | .ok (.const .unknownInt) => .ok (.const .unknownInt)
  | .ok (.const (.u s e)) => .ok (.const (.u s e))
  | .ok (.const (.i s e)) => .ok (.const (.i s e))
  | .ok _ => .unimpl
  | .err e => .err e
  | .unimpl => .unimpl
termination_by sizeOf value + 1

/-- `Env::type_of_bool_binop`: both operands must be `Bool`. -/
def typeOfBoolBinop (env : Env) (lhs rhs : Expr) : TcResult Ty :=
  match typeOf env lhs with
  | .ok lhsTy =>
      match typeOf env rhs with
      | .ok rhsTy =>
          match lhsTy, rhsTy with
          | .const .bool, .const .bool => .ok (.const .bool)
          | _, _ => .unimpl
      | .err e => .err e
      | .unimpl => .unimpl
  | .err e => .err e
  | .unimpl => .unimpl
termination_by sizeOf lhs + sizeOf rhs + 1

/-- `Env::type_of_comparison_binop`: an `UnknownInt` operand coerces to
the other side's concrete integer type; equal concrete integer types
compare; every other combination hits `unimplemented!`. -/
def typeOfComparisonBinop (env : Env) (lhs rhs : Expr) : TcResult Ty :=
  match typeOf env lhs with
  | .ok lhsTy =>
      match typeOf env rhs with
      | .ok rhsTy =>
          match lhsTy, rhsTy with
          | .const (.u _ _), .const .unknownInt => .ok (.const .bool)
          | .const (.i _ _), .const .unknownInt => .ok (.const .bool)
          | .const .unknownInt, .const (.u _ _) => .ok (.const .bool)
          | .const .unknownInt, .const (.i _ _) => .ok (.const .bool)
          | .const (.u ls le'), .const (.u rs re) =>
              if ls = rs ∧ le' = re then .ok (.const .bool) else .unimpl
          | .const (.i ls le'), .const (.i rs re) =>
              if ls = rs ∧ le' = re then .ok (.const .bool) else .unimpl
          | _, _ => .unimpl
      | .err e => .err e
      | .unimpl => .unimpl
  | .err e => .err e
  | .unimpl => .unimpl
termination_by sizeOf lhs + sizeOf rhs + 1

/-- `Env::type_of_int_binop`: as the comparison rule but producing the
integer type instead of `Bool`. -/
def typeOfIntBinop (env : Env) (lhs rhs : Expr) : TcResult Ty :=
  match typeOf env lhs with
  | .ok lhsTy =>
      match typeOf env rhs with
      | .ok rhsTy =>
          match lhsTy, rhsTy with
          | .const (.u s e), .const .unknownInt => .ok (.const (.u s e))
          | .const (.i s e), .const .unknownInt => .ok (.const (.i s e))
          | .const .unknownInt, .const (.u s e) => .ok (.const (.u s e))
          | .const .unknownInt, .const (.i s e) => .ok (.const (.i s e))
          | .const (.u ls le'), .const (.u rs re) =>
              if ls = rs ∧ le' = re then .ok (.const (.u ls le')) else .unimpl
          | .const (.i ls le'), .const (.i rs re) =>
              if ls = rs ∧ le' = re then .ok (.const (.i ls le')) else .unimpl
          | _, _ => .unimpl
      | .err e => .err e
      | .unimpl => .unimpl
  | .err e => .err e
  | .unimpl => .unimpl
termination_by sizeOf lhs + sizeOf rhs + 1
end

mutual
/-- `Env::kind_of` (`Γ ⊢ τ : κ`) from `src/check.rs`. The `Where` arm
mirrors the source exactly: it kind-checks the underlying type, builds
`inner_env` by extending the environment with the parameter binding, but
then type-checks the predicate against `self` — the *outer*
environment — leaving `inner_env` unused. -/
def kindOf (env : Env) : Ty → KcResult Kind
  | .const _ => .ok .type
  | .var sp name =>
      match env.lookupTy name with
      | some _ => .ok .type
      | none => .err (.unboundType sp name)
  | .union _ tys => kindOfList env tys
  | .struct _ fields => kindOfFields env.extend fields
  | .array sp ty size =>
      match kindOf env ty with
      | .ok _ =>
          match typeOf env size with
          | .ok exprTy =>
              match exprTy with
              | .const .unknownInt => .ok .type
              | .const (.u _ _) => .ok .type
              | t => .err (.arraySizeExpectedUInt sp t)
          | .err e => .err (.arraySizeType sp e)
          | .unimpl => .unimpl
      | .err e => .err e
      | .unimpl => .unimpl
  | .whereTy sp ty param pred =>
      match kindOf env ty with
      | .ok _ =>
          let _innerEnv := env.extend.addBinding param ty
          match typeOf env pred with
          | .ok (.const .bool) => .ok .type
          | .ok predTy => .err (.wherePredicateExpectedBool sp predTy)
          | .err e => .err (.wherePredicateType sp e)
          | .unimpl => .unimpl
      | .err e => .err e
      | .unimpl => .unimpl

/-- The `K-SUM` loop: every member of a union must kind-check. -/
def kindOfList (env : Env) : List Ty → KcResult Kind
  | [] => .ok .type
  | t :: ts =>
      match kindOf env t with
      | .ok _ => kindOfList env ts
      | .err e => .err e
      | .unimpl => .unimpl

/-- The `K-DEPENDENT-PAIR` loop: each field kind-checks in the inner
environment extended by all previous fields' bindings; there is no check
that a field label is fresh. -/
def kindOfFields (env : Env) : List (Span × String × Ty) → KcResult Kind
  | [] => .ok .type
  | (_, name, ty) :: rest =>
      match kindOf env ty with
      | .ok _ => kindOfFields (env.addBinding name ty) rest
      | .err e => .err e
      | .unimpl => .unimpl
end

/-- `ast::Definition` (spans on definitions are inert and omitted). -/
structure Definition where
  name : String
  ty : Ty

/-- `Env::check_defs` from `src/check.rs`: kind-check each definition in
order, binding its name for later items; the `?` on `kind_of` returns
the first error immediately. The Rust function mutates `self` and
returns `Result<(), KindError>`; the model returns the final
environment in the `ok` case to make the mutation explicit. -/
def checkDefs (env : Env) : List Definition → KcResult Env
  | [] => .ok env
  | d :: ds =>
      match kindOf env d.ty with
      | .ok _ => checkDefs (env.addTy d.name d.ty) ds
      | .err e => .err e
      | .unimpl => .unimpl

/-- The type `u8` (one-byte unsigned, target endianness). -/
def u8T : Ty := .const (.u 1 .target)

/-- The predicate `x < 10`. -/
def predXLt10 : Expr :=
  .binop ⟨10, 16⟩ .lt (.var ⟨10, 11⟩ "x") (.const ⟨14, 16⟩ (.uint 10))

/-- The constrained type `{ x : u8 | x < 10 }`. -/
def whereXLt10 : Ty := .whereTy ⟨0, 17⟩ u8T "x" predXLt10

/-- The struct type `struct { x: u8, x: u8 }` with a duplicated label. -/
def dupFieldStruct : Ty :=
  .struct ⟨0, 23⟩ [(⟨9, 14⟩, "x", u8T), (⟨16, 21⟩, "x", u8T)]

end OldCheck

namespace BinHost

/-- `host::TypeConst` as used by `src/syntax/check/mod.rs` (`U8`,
`Bool`, `Int` are the constants its rules mention). -/
inductive HostTypeConst where
  | u8
  | bool
  | int
deriving DecidableEq

/-- `host::Unop`. -/
inductive Unop where
  | neg
  | not
deriving DecidableEq

/-- `host::Binop`. -/
inductive Binop where
  | or
  | and
  | eq
  | ne
  | le
  | lt
  | gt
  | ge
  | add
  | sub
  | mul
  | div
deriving DecidableEq

/-- `var::Var`: a free name or a de-Bruijn-indexed bound variable
(`Named(name, i)`). -/
inductive Var where
  | free (name : String)
  | bound (name : String) (i : Nat)
deriving DecidableEq

/-- `host::Type` as used by `src/syntax/check/mod.rs`: constants,
arrays, arrows, structs and unions of named fields; `var` carries
variables arising from the representation of binary type variables.
Source spans are semantically inert and omitted. -/
inductive HType where
  | const (c : HostTypeConst)
  | var (v : Var)
  | array (elem : HType)
  | arrow (params : List HType) (ret : HType)
  | struct (fields : List (String × HType))
  | union (variants : List (String × HType))

/-- `host::Const` with `Const::ty_const_of`. -/
inductive HConst where
  | bool (b : Bool)
  | int (n : Int)
deriving DecidableEq

/-- `Const::ty_const_of`. -/
def HConst.tyConstOf : HConst → HostTypeConst
  | .bool _ => .bool
  | .int _ => .int

/-- `host::Expr` as matched by `ty_of` in `src/syntax/check/mod.rs`. -/
inductive HExpr where
  | const (c : HConst)
  | var (v : Var)
  | prim (name : String) (reprTy : HType)
  | unop (op : Unop) (e : HExpr)
  | binop (op : Binop) (l r : HExpr)
  | struct (fields : List (String × HExpr))
  | proj (e : HExpr) (field : String)
  | intro (variant : String) (e : HExpr) (unionTy : HType)
  | subscript (arr idx : HExpr)
  | abs (params : List (String × HType)) (body : HExpr)
  | app (f : HExpr) (args : List HExpr)

mutual
/-- Structural equality on host types, the `PartialEq` the source's
`found == expected` comparison uses. -/
def HType.beq : HType → HType → Bool
  | .const a, .const b => a = b
  | .var a, .var b => a = b
  | .array a, .array b => a.beq b
  | .arrow ps r, .arrow qs t => HType.beqList ps qs && r.beq t
  | .struct fs, .struct gs => HType.beqFields fs gs
  | .union fs, .union gs => HType.beqFields fs gs
  | _, _ => false

/-- Structural equality on lists of host types. -/
def HType.beqList : List HType → List HType → Bool
  | [], [] => true
  | a :: as', b :: bs' => a.beq b && HType.beqList as' bs'
  | _, _ => false

/-- Structural equality on named-field lists. -/
def HType.beqFields : List (String × HType) → List (String × HType) → Bool
  | [], [] => true
  | (n, a) :: as', (m, b) :: bs' => n = m && a.beq b && HType.beqFields as' bs'
  | _, _ => false
end

/-- `Type::lookup_field`: the type of a named struct field. -/
def HType.lookupField (t : HType) (n : String) : Option HType :=
  match t with
  | .struct fs => (fs.find? fun p => p.1 = n).map fun p => p.2
  | _ => none

/-- `Type::lookup_variant`: the type of a named union variant. -/
def HType.lookupVariant (t : HType) (n : String) : Option HType :=
  match t with
  | .union fs => (fs.find? fun p => p.1 = n).map fun p => p.2
  | _ => none

/-- `binary::Kind`: `Type`, or an arity-`n` arrow over `Type`
(`Kind::arrow(n)`). -/
inductive BKind where
  | type
  | arrow (arity : Nat)
deriving DecidableEq

/-- `binary::TypeConst`: the byte type is the only constant. -/
inductive BTypeConst where
  | u8
deriving DecidableEq

/-- `binary::Type` as matched by `kind_of` in
`src/syntax/check/mod.rs`: variables, the byte constant, arrays sized by
a host expression, conditional (`Assert`) and interpreted (`Interp`)
types, type abstraction and application, unions and structs. -/
inductive BType where
  | var (v : Var)
  | const (c : BTypeConst)
  | array (elem : BType) (size : HExpr)
  | assert (ty : BType) (pred : HExpr)
  | interp (ty : BType) (conv : HExpr) (host : HType)
  | abs (params : List String) (body : BType)
  | union (fields : List (String × BType))
  | struct (fields : List (String × BType))
  | app (f : BType) (args : List BType)

mutual
/-- Modelled from the spec: `binary::Type::repr`, the host representation
of a binary type (§6.4: generated host structs mirror record types). The
source file defining it is not part of the repository snapshot; the
claims proved here never evaluate it. -/
def BType.repr : BType → HType
  | .var v => .var v
  | .const .u8 => .const .u8
  | .array e _ => .array e.repr
  | .assert t _ => t.repr
  | .interp _ _ host => host
  | .abs _ b => b.repr
  | .union fs => .union (BType.reprFields fs)
  | .struct fs => .struct (BType.reprFields fs)
  | .app f _ => f.repr

/-- Host representations of a named-field list. -/
def BType.reprFields : List (String × BType) → List (String × HType)
  | [] => []
  | (n, t) :: rest => (n, t.repr) :: BType.reprFields rest
end

/-- `check::context::Scope`: what one context frame binds — expression
abstractions, type abstractions, or type definitions. -/
inductive Scope where
  | exprAbs (params : List (String × HType))
  | typeAbs (params : List (String × BKind))
  | typeDef (defs : List (String × BType × BKind))

/-- One bound entry of a context, tagged with the kind of scope that
introduced it. -/
inductive Entry where
  | expr (name : String) (ty : HType)
  | tyAbs (name : String) (k : BKind)
  | tyDef (name : String) (ty : BType) (k : BKind)

/-- Modelled from the spec: the type-checking context
(`check::context::Context`, whose source file is not part of the
repository snapshot). Per §9 it is a chain of frames with shared tails,
extended innermost-first; de Bruijn indices count binders from the
innermost end. -/
def Context := List Scope

/-- The empty context (`Context::new`). -/
def Context.new : Context := []

/-- `Context::extend`: push a scope frame. -/
def Context.extend (ctx : Context) (s : Scope) : Context := s :: ctx

/-- The entries a single frame contributes, innermost binder first. -/
def Scope.entries : Scope → List Entry
  | .exprAbs ps => ps.map fun p => .expr p.1 p.2
  | .typeAbs ps => ps.map fun p => .tyAbs p.1 p.2
  | .typeDef ds => ds.map fun d => .tyDef d.1 d.2.1 d.2.2

/-- All entries of a context, innermost first. -/
def Context.entries (ctx : Context) : List Entry :=
  ctx.flatMap Scope.entries

/-- The scope shape reported when a lookup finds a binder of the wrong
level (the error side of `lookup_ty` / `lookup_kind` / `lookup_ty_def`). -/
def Entry.scope : Entry → Scope
  | .expr n t => .exprAbs [(n, t)]
  | .tyAbs n k => .typeAbs [(n, k)]
  | .tyDef n t k => .typeDef [(n, t, k)]

/-- `Context::lookup_ty`: the `i`-th binder must be an expression
binding; otherwise the offending scope is returned. -/
def Context.lookupTy (ctx : Context) (i : Nat) : Except Scope (String × HType) :=
  match ctx.entries.get? i with
  | some (.expr n t) => .ok (n, t)
  | some e => .error e.scope
  | none => .error (.exprAbs [])

/-- `Context::lookup_kind`: the `i`-th binder must be type-level. -/
def Context.lookupKind (ctx : Context) (i : Nat) : Except Scope (String × BKind) :=
  match ctx.entries.get? i with
  | some (.tyAbs n k) => .ok (n, k)
  | some (.tyDef n _ k) => .ok (n, k)
  | none => .error (.typeAbs [])
  | some e => .error e.scope

/-- `Context::lookup_ty_def`: the `i`-th binder must be a definition. -/
def Context.lookupTyDef (ctx : Context) (i : Nat) : Except Scope (String × BType) :=
  match ctx.entries.get? i with
  | some (.tyDef n t _) => .ok (n, t)
  | some e => .error e.scope
  | none => .error (.typeDef [])

/-- `ExpectedType` from `src/syntax/check/mod.rs`. -/
inductive ExpectedType where
  | array
  | arrow
  | actual (t : HType)

/-- `TypeError` from `src/syntax/check/mod.rs`. -/
inductive TypeError where
  | unboundVariable (expr : HExpr) (name : String)
  | exprBindingExpected (expr : HExpr) (found : Scope)
  | mismatch (expr : HExpr) (found : HType) (expected : ExpectedType)
  | equalityOperands (expr : HExpr) (lhsTy rhsTy : HType)
  | missingField (expr : HExpr) (structTy : HType) (fieldName : String)
  | missingVariant (expr : HExpr) (unionTy : HType) (variantName : String)

/-- `KindError` from `src/syntax/check/mod.rs`. -/
inductive KindError where
  | unboundVariable (ty : BType) (name : String)
  | typeBindingExpected (ty : BType) (found : Scope)
  | mismatch (ty : BType) (expected : BKind) (found : BKind)
  | type (e : TypeError)

/-- Outcome of typing a host expression: `Ok`, `Err`, or the
`unimplemented!` panic on arity-mismatched applications. -/
inductive TyR (α : Type) where
  | ok (a : α)
  | err (e : TypeError)
  | unimpl

/-- Outcome of kinding a binary type. -/
inductive KiR (α : Type) where
  | ok (a : α)
  | err (e : KindError)
  | unimpl

/-- The host integer type (`host::Type::int()`). -/
def intT : HType := .const .int

/-- The host boolean type (`host::Type::bool()`). -/
def boolT : HType := .const .bool

mutual
/-- `ty_of` from `src/syntax/check/mod.rs`: the type of a host
expression, in source order — constants, variables, primitives, unary
and binary operators, struct expressions, field projection, variant
introduction, array subscripts, abstraction and application. -/
def tyOf (ctx : Context) : HExpr → TyR HType
  | .const c => .ok (.const c.tyConstOf)
  | .var (.free name) => .err (.unboundVariable (.var (.free name)) name)
  | .var (.bound name i) =>
      match ctx.lookupTy i with
      | .ok p => .ok p.2
      | .error sc => .err (.exprBindingExpected (.var (.bound name i)) sc)
  | .prim _ reprTy => .ok reprTy
  | .unop op e =>
      match op with
      | .neg =>
          match expectTy ctx e intT with
          | .ok _ => .ok intT
          | .err er => .err er
          | .unimpl => .unimpl
      | .not =>
          match expectTy ctx e boolT with
          | .ok _ => .ok boolT
          | .err er => .err er
          | .unimpl => .unimpl
  | .binop op lhs rhs =>
      match op with
      | .or | .and =>
          match expectTy ctx lhs boolT with
          | .ok _ =>
              match expectTy ctx rhs boolT with
              | .ok _ => .ok boolT
              | .err er => .err er
              | .unimpl => .unimpl
          | .err er => .err er
          | .unimpl => .unimpl
      | .eq | .ne =>
          match tyOf ctx lhs with
          | .ok lhsTy =>
              match tyOf ctx rhs with
              | .ok rhsTy =>
                  match lhsTy, rhsTy with
                  | .const .u8, .const .u8 => .ok boolT
                  | .const .bool, .const .bool => .ok boolT
                  | .const .int, .const .int => .ok boolT
                  | l, r => .err (.equalityOperands (.binop op lhs rhs) l r)
              | .err er => .err er
              | .unimpl => .unimpl
          | .err er => .err er
          | .unimpl => .unimpl
      | .le | .lt | .gt | .ge =>
          match expectTy ctx lhs intT with
          | .ok _ =>
              match expectTy ctx rhs intT with
              | .ok _ => .ok boolT
              | .err er => .err er
              | .unimpl => .unimpl
          | .err er => .err er
          | .unimpl => .unimpl
      | .add | .sub | .mul | .div =>
          match expectTy ctx lhs intT with
          | .ok _ =>
              match expectTy ctx rhs intT with
              | .ok _ => .ok intT
              | .err er => .err er
              | .unimpl => .unimpl
          | .err er => .err er
          | .unimpl => .unimpl
  | .struct fields =>
      match tyOfFields ctx fields with
      | .ok fieldTys => .ok (.struct fieldTys)
      | .err er => .err er
      | .unimpl => .unimpl
  | .proj structExpr fieldName =>
      match tyOf ctx structExpr with
      | .ok structTy =>
          match structTy.lookupField fieldName with
          | some fieldTy => .ok fieldTy
          | none => .err (.missingField structExpr structTy fieldName)
      | .err er => .err er
      | .unimpl => .unimpl
  | .intro variantName e unionTy =>
      match unionTy.lookupVariant variantName with
      | some variantTy =>
          match expectTy ctx e variantTy with
          | .ok _ => .ok unionTy
          | .err er => .err er
          | .unimpl => .unimpl
      | none => .err (.missingVariant e unionTy variantName)
  | .subscript arrayExpr indexExpr =>
      match expectTy ctx indexExpr intT with
      | .ok _ =>
          match tyOf ctx arrayExpr with
          | .ok (.array elemTy) => .ok elemTy
          | .ok found => .err (.mismatch arrayExpr found .array)
          | .err er => .err er
          | .unimpl => .unimpl
      | .err er => .err er
      | .unimpl => .unimpl
  | .abs params bodyExpr =>
      let ctx' := ctx.extend (.exprAbs params)
      let paramTys := params.map fun p => p.2
      match tyOf ctx' bodyExpr with
      | .ok bodyTy => .ok (.arrow paramTys bodyTy)
      | .err er => .err er
      | .unimpl => .unimpl
  | .app fnExpr argExprs =>
      match tyOf ctx fnExpr with
      | .ok fnTy =>
          match fnTy with
          | .arrow paramTys retTy =>
              if argExprs.length = paramTys.length then
                match expectArgs ctx argExprs paramTys with
                | .ok _ => .ok retTy
                | .err er => .err er
                | .unimpl => .unimpl
              else .unimpl
          | _ => .err (.mismatch fnExpr fnTy .arrow)
      | .err er => .err er
      | .unimpl => .unimpl
termination_by e => (sizeOf e, 0)

/-- The struct-expression loop of `ty_of`. -/
def tyOfFields (ctx : Context) : List (String × HExpr) → TyR (List (String × HType))
  | [] => .ok []
  | (n, e) :: rest =>
      match tyOf ctx e with
      | .ok t =>
          match tyOfFields ctx rest with
          | .ok ts => .ok ((n, t) :: ts)
          | .err er => .err er
          | .unimpl => .unimpl
      | .err er => .err er
      | .unimpl => .unimpl
termination_by fs => (sizeOf fs, 0)

/-- The application-argument loop of `ty_of`: each argument is checked
against the corresponding parameter type. -/
def expectArgs (ctx : Context) : List HExpr → List HType → TyR Unit
  | [], _ => .ok ()
  | a :: as', ps =>
      match ps with
      | [] => .ok ()
      | p :: ps' =>
          match expectTy ctx a p with
          | .ok _ => expectArgs ctx as' ps'
          | .err er => .err er
          | .unimpl => .unimpl
termination_by as' _ => (sizeOf as', 0)

/-- `expect_ty` from `src/syntax/check/mod.rs`: infer and compare with
the structural equality `PartialEq` uses; a mismatch reports the found
type and `ExpectedType::Actual(expected)`. -/
def expectTy (ctx : Context) (expr : HExpr) (expected : HType) : TyR HType :=
  match tyOf ctx expr with
  | .ok found =>
      if found.beq expected then .ok found
      else .err (.mismatch expr found (.actual expected))
  | .err er => .err er
  | .unimpl => .unimpl
termination_by (sizeOf expr, 1)
end

mutual
/-- Modelled from the spec: `binary::Type::instantiate` (§4.1,
capture-avoiding substitution of type arguments for an abstraction's de
Bruijn parameters; the binder library's source is not part of the
repository snapshot). `depth` counts the parameters of enclosing
abstractions; arguments are assumed closed, as they are in
`simplify_ty`'s use. The claims proved here never evaluate it. -/
def instantiate (args : List BType) (depth : Nat) : BType → BType
  | .var (.bound n i) =>
      if depth ≤ i then
        match args.get? (i - depth) with
        | some t => t
        | none => .var (.bound n i)
      else .var (.bound n i)
  | .var (.free n) => .var (.free n)
  | .const c => .const c
  | .array e sz => .array (instantiate args depth e) sz
  | .assert t p => .assert (instantiate args depth t) p
  | .interp t c h => .interp (instantiate args depth t) c h
  | .abs ps b => .abs ps (instantiate args (depth + ps.length) b)
  | .union fs => .union (instantiateFields args depth fs)
  | .struct fs => .struct (instantiateFields args depth fs)
  | .app f as' => .app (instantiate args depth f) (instantiateList args depth as')

/-- Instantiation on named-field lists. -/
def instantiateFields (args : List BType) (depth : Nat) :
    List (String × BType) → List (String × BType)
  | [] => []
  | (n, t) :: rest => (n, instantiate args depth t) :: instantiateFields args depth rest

/-- Instantiation on argument lists. -/
def instantiateList (args : List BType) (depth : Nat) : List BType → List BType
  | [] => []
  | t :: rest => instantiate args depth t :: instantiateList args depth rest
end

/-- The inner `compute_ty` of `simplify_ty`: unfold a defined variable,
or beta-reduce an application whose head is an abstraction. -/
def computeTy (ctx : Context) (t : BType) : Option BType :=
  match t with
  | .var (.bound _ i) =>
      match ctx.lookupTyDef i with
      | .ok p => some p.2
      | .error _ => none
  | .app f argTys =>
      match f with
      | .abs _ bodyTy => some (instantiate argTys 0 bodyTy)
      | _ => none
  | _ => none

/-- `simplify_ty` from `src/syntax/check/mod.rs`: simplify the head of
an application, then repeatedly unfold with `compute_ty`. The Rust
recursion terminates only on acyclic contexts; `gas` bounds the
unfolding to make the model total (returning the type unchanged when
exhausted) and the claims proved here never exercise this path. -/
def simplifyTy (ctx : Context) : Nat → BType → BType
  | 0, t => t
  | gas + 1, t =>
      let t1 :=
        match t with
        | .app f _ => simplifyTy ctx gas f
        | _ => t
      match computeTy ctx t1 with
      | some t2 => simplifyTy ctx gas t2
      | none => t1

mutual
/-- `kind_of` from `src/syntax/check/mod.rs`: the kind of a binary
type, in source order — variables, the byte constant, arrays (element
must kind to `Type`, size must type to `Int`), conditional types (the
predicate must type to `repr(τ) → Bool`), interpreted types, type
abstraction (note the source checks the body *before* extending the
context with the parameters, mirrored faithfully), unions, structs
(each field's simplified representation is bound for later fields), and
application. `gas` only feeds `simplify_ty`. -/
def kindOfB (ctx : Context) (gas : Nat) : BType → KiR BKind
  | .var (.free name) => .err (.unboundVariable (.var (.free name)) name)
  | .var (.bound name i) =>
      match ctx.lookupKind i with
      | .ok p => .ok p.2
      | .error sc => .err (.typeBindingExpected (.var (.bound name i)) sc)
  | .const .u8 => .ok .type
  | .array elemTy sizeExpr =>
      match expectTyKind ctx gas elemTy with
      | .ok _ =>
          match expectTy ctx sizeExpr intT with
          | .ok _ => .ok .type
          | .err e => .err (.type e)
          | .unimpl => .unimpl
      | .err e => .err e
      | .unimpl => .unimpl
  | .assert ty predExpr =>
      match expectTyKind ctx gas ty with
      | .ok _ =>
          match expectTy ctx predExpr (.arrow [ty.repr] boolT) with
          | .ok _ => .ok .type
          | .err e => .err (.type e)
          | .unimpl => .unimpl
      | .err e => .err e
      | .unimpl => .unimpl
  | .interp ty convExpr hostTy =>
      match expectTyKind ctx gas ty with
      | .ok _ =>
          match expectTy ctx convExpr (.arrow [ty.repr] hostTy) with
          | .ok _ => .ok .type
          | .err e => .err (.type e)
          | .unimpl => .unimpl
      | .err e => .err e
      | .unimpl => .unimpl
  | .abs paramNames bodyTy =>
      match expectTyKind ctx gas bodyTy with
      | .ok _ =>
          let _ctx' := ctx.extend (.typeAbs (paramNames.map fun n => (n, BKind.type)))
          .ok (.arrow paramNames.length)
      | .err e => .err e
      | .unimpl => .unimpl
  | .union fields => kindOfUnionFields ctx gas fields
  | .struct fields => kindOfStructFields ctx gas fields
  | .app fnTy argTys =>
      match expectKind ctx gas fnTy (.arrow argTys.length) with
      | .ok _ => kindOfArgs ctx gas argTys
      | .err e => .err e
      | .unimpl => .unimpl

/-- The union loop of `kind_of`. -/
def kindOfUnionFields (ctx : Context) (gas : Nat) : List (String × BType) → KiR BKind
  | [] => .ok .type
  | (_, t) :: rest =>
      match expectTyKind ctx gas t with
      | .ok _ => kindOfUnionFields ctx gas rest
      | .err e => .err e
      | .unimpl => .unimpl

/-- The struct loop of `kind_of`: each field kind-checks, then its
simplified type's representation is bound for the later fields. -/
def kindOfStructFields (ctx : Context) (gas : Nat) : List (String × BType) → KiR BKind
  | [] => .ok .type
  | (name, t) :: rest =>
      match expectTyKind ctx gas t with
      | .ok _ =>
          let fieldTy := simplifyTy ctx gas t
          kindOfStructFields (ctx.extend (.exprAbs [(name, fieldTy.repr)])) gas rest
      | .err e => .err e
      | .unimpl => .unimpl

/-- The application-argument loop of `kind_of`. -/
def kindOfArgs (ctx : Context) (gas : Nat) : List BType → KiR BKind
  | [] => .ok .type
  | t :: rest =>
      match expectTyKind ctx gas t with
      | .ok _ => kindOfArgs ctx gas rest
      | .err e => .err e
      | .unimpl => .unimpl

/-- `expect_kind`: kinds are compared with `PartialEq`. -/
def expectKind (ctx : Context) (gas : Nat) (ty : BType) (expected : BKind) : KiR BKind :=
  match kindOfB ctx gas ty with
  | .ok found =>
      if found = expected then .ok found
      else .err (.mismatch ty expected found)
  | .err e => .err e
  | .unimpl => .unimpl

/-- `expect_ty_kind`: the type must kind to `Type`. -/
def expectTyKind (ctx : Context) (gas : Nat) (ty : BType) : KiR Unit :=
  match expectKind ctx gas ty .type with
  | .ok _ => .ok ()
  | .err e => .err e
  | .unimpl => .unimpl
end

/-- One definition of a `Program` (`def.name`, `def.ty`). -/
structure BDef where
  name : String
  ty : BType

/-- The loop of `check_program`: kind-check each definition in order
against the growing context, binding it as a `TypeDef` scope for the
later ones; the `?` on `kind_of` returns the first error immediately. -/
def checkProgramLoop (gas : Nat) (ctx : Context) : List BDef → KiR Context
  | [] => .ok ctx
  | d :: ds =>
      match kindOfB ctx gas d.ty with
      | .ok defKind => checkProgramLoop gas (ctx.extend (.typeDef [(d.name, d.ty, defKind)])) ds
      | .err e => .err e
      | .unimpl => .unimpl

/-- `check_program` from `src/syntax/check/mod.rs`: run the loop from
the empty context. The model returns the final context in the `ok` case
to make the accumulation explicit. -/
def checkProgram (gas : Nat) (defs : List BDef) : KiR Context :=
  checkProgramLoop gas Context.new defs

end BinHost


namespace DepCore

theorem readUIntLit_ok (w : Nat) (little : Bool) (s : List Byte) (v : Value) (rest : List Byte)
    (h : readUIntLit w little s = .ok v rest) :
    w ≤ s.length ∧ rest = s.drop w ∧ ∃ l, v = Value.lit l := by
  unfold readUIntLit readBytes at h
  by_cases hw : w ≤ s.length
  · simp [hw] at h
    exact ⟨hw, h.2.symm, _, h.1.symm⟩
  · simp [hw] at h

theorem readSIntLit_ok (w : Nat) (little : Bool) (s : List Byte) (v : Value) (rest : List Byte)
    (h : readSIntLit w little s = .ok v rest) :
    w ≤ s.length ∧ rest = s.drop w ∧ ∃ l, v = Value.lit l := by
  unfold readSIntLit readBytes at h
  by_cases hw : w ≤ s.length
  · simp [hw] at h
    exact ⟨hw, h.2.symm, _, h.1.symm⟩
  · simp [hw] at h

theorem readF32Lit_ok (little : Bool) (s : List Byte) (v : Value) (rest : List Byte)
    (h : readF32Lit little s = .ok v rest) :
    4 ≤ s.length ∧ rest = s.drop 4 ∧ ∃ l, v = Value.lit l := by
  unfold readF32Lit readBytes at h
  by_cases hw : 4 ≤ s.length
  · simp [hw] at h
    exact ⟨hw, h.2.symm, _, h.1.symm⟩
  · simp [hw] at h

theorem readF64Lit_ok (little : Bool) (s : List Byte) (v : Value) (rest : List Byte)
    (h : readF64Lit little s = .ok v rest) :
    8 ≤ s.length ∧ rest = s.drop 8 ∧ ∃ l, v = Value.lit l := by
  unfold readF64Lit readBytes at h
  by_cases hw : 8 ≤ s.length
  · simp [hw] at h
    exact ⟨hw, h.2.symm, _, h.1.symm⟩
  · simp [hw] at h

theorem parsePrim_ok (n : String) (s : List Byte) (v : Value) (rest : List Byte)
    (h : parsePrim n s = .ok v rest) :
    ∃ w, primWidth n = some w ∧ w ≤ s.length ∧ rest = s.drop w ∧ ∃ l, v = Value.lit l := by
  unfold parsePrim at h
  split at h
  · exact ⟨1, rfl, readUIntLit_ok 1 true s v rest h⟩
  · exact ⟨2, rfl, readUIntLit_ok 2 true s v rest h⟩
  · exact ⟨2, rfl, readUIntLit_ok 2 false s v rest h⟩
  · exact ⟨4, rfl, readUIntLit_ok 4 true s v rest h⟩
  · exact ⟨4, rfl, readUIntLit_ok 4 false s v rest h⟩
  · exact ⟨8, rfl, readUIntLit_ok 8 true s v rest h⟩
  · exact ⟨8, rfl, readUIntLit_ok 8 false s v rest h⟩
  · exact ⟨1, rfl, readSIntLit_ok 1 true s v rest h⟩
  · exact ⟨2, rfl, readSIntLit_ok 2 true s v rest h⟩
  · exact ⟨2, rfl, readSIntLit_ok 2 false s v rest h⟩
  · exact ⟨4, rfl, readSIntLit_ok 4 true s v rest h⟩
  · exact ⟨4, rfl, readSIntLit_ok 4 false s v rest h⟩
  · exact ⟨8, rfl, readSIntLit_ok 8 true s v rest h⟩
  · exact ⟨8, rfl, readSIntLit_ok 8 false s v rest h⟩
  · exact ⟨4, rfl, readF32Lit_ok true s v rest h⟩
  · exact ⟨4, rfl, readF32Lit_ok false s v rest h⟩
  · exact ⟨8, rfl, readF64Lit_ok true s v rest h⟩
  · exact ⟨8, rfl, readF64Lit_ok false s v rest h⟩
  · exact absurd h (by simp)

theorem parsePrim_not_prim (n : String) (s : List Byte) (h : primWidth n = none) :
    parsePrim n s = .err (.invalidType (.neutral (.head (.global n)) [])) := by
  unfold parsePrim
  split
  all_goals first
    | rfl
    | simp [primWidth] at h

theorem substVal_flat (x : String) (v : Value) (f : Flat) :
    substVal x v f.toValue = f.toValue := by
  induction f with
  | prim n => rfl
  | arr k e ih => simp [Flat.toValue, substVal, substList, ih]
  | field l y t r iht ihr =>
      by_cases hyx : y = x <;> simp [Flat.toValue, substVal, hyx, iht, ihr]
  | empty => rfl

theorem normalize_flat (env : TcEnv) (f : Flat) :
    normalize env f.toValue = f.toValue := by
  induction f with
  | prim n => rfl
  | arr k e ih => simp [Flat.toValue, normalize, normList, ih]
  | field l y t r iht ihr => simp [Flat.toValue, normalize, iht, ihr]
  | empty => rfl

theorem parseElems_ok (p : List Byte → PResult) (w : Nat)
    (hp : ∀ s v s', p s = .ok v s' → w ≤ s.length ∧ s' = s.drop w) :
    ∀ (count : Nat) (s : List Byte) (vs : List Value) (s' : List Byte),
      parseElems p count s = .ok vs s' → count * w ≤ s.length ∧ s' = s.drop (count * w) := by
  intro count
  induction count with
  | zero =>
      intro s vs s' h
      simp [parseElems] at h
      simp [h.2]
  | succ c ih =>
      intro s vs s' h
      simp only [parseElems] at h
      cases hps : p s <;> rw [hps] at h <;> simp at h
      rename_i v1 s1
      cases hpe : parseElems p c s1 <;> rw [hpe] at h <;> simp at h
      rename_i vs2 s2
      obtain ⟨hw, hs1⟩ := hp s v1 s1 hps
      obtain ⟨hcw, hs2⟩ := ih s1 vs2 s2 hpe
      have hlen : s1.length = s.length - w := by rw [hs1, List.length_drop]
      constructor
      · have h1 : c * w ≤ s.length - w := hlen ▸ hcw
        have : (c + 1) * w = c * w + w := by ring
        omega
      · rw [← h.2, hs2, hs1, List.drop_drop]
        congr 1
        ring

theorem parse_flat (env : TcEnv) :
    ∀ (fuel : Nat) (f : Flat) (n : Nat) (s : List Byte) (v : Value) (s' : List Byte),
      Flat.size f = some n → parse env fuel f.toValue s = .ok v s' →
      n ≤ s.length ∧ s' = s.drop n := by
  intro fuel
  induction fuel with
  | zero =>
      intro f n s v s' hsz hp
      simp [parse] at hp
  | succ fuel ih =>
      intro f n s v s' hsz hp
      cases f with
      | empty =>
          simp [Flat.size] at hsz
          have hp' : PResult.ok Value.recordEmpty s = .ok v s' := hp
          simp at hp'
          simp [← hsz, hp'.2]
      | prim name =>
          have hp' : parsePrim name s = .ok v s' := hp
          obtain ⟨w, hw, hle, hdrop, _⟩ := parsePrim_ok name s v s' hp'
          simp [Flat.size] at hsz
          rw [hsz] at hw
          simp at hw
          subst hw
          exact ⟨hle, hdrop⟩
      | arr k e =>
          simp only [Flat.size] at hsz
          cases hwe : Flat.size e with
          | none => rw [hwe] at hsz; simp at hsz
          | some w =>
              rw [hwe] at hsz
              simp at hsz
              simp [Flat.toValue, parse] at hp
              by_cases hk : (k : Int) ≤ (usizeMax : Int)
              · have htu : toUsize (k : Int) = some k := by simp [toUsize, hk]
                rw [htu] at hp
                simp at hp
                cases hpe : parseElems (fun s2 => parse env fuel e.toValue s2) k s <;>
                  rw [hpe] at hp <;> simp at hp
                rename_i vs rest
                have helem : ∀ s2 v2 s2', parse env fuel e.toValue s2 = .ok v2 s2' →
                    w ≤ s2.length ∧ s2' = s2.drop w :=
                  fun s2 v2 s2' h2 => ih e w s2 v2 s2' hwe h2
                obtain ⟨hle, hdrop⟩ := parseElems_ok _ w helem k s vs rest hpe
                constructor
                · rw [← hsz]; exact hle
                · rw [← hp.2, hdrop, ← hsz]
              · have htu : toUsize (k : Int) = none := by simp [toUsize, hk]
                rw [htu] at hp
                simp at hp
      | field l x t r =>
          simp only [Flat.size] at hsz
          rcases hst : Flat.size t with _ | a <;> rw [hst] at hsz
          · simp at hsz
          rcases hsr : Flat.size r with _ | b <;> rw [hsr] at hsz
          · simp at hsz
          simp at hsz
          simp only [Flat.toValue, parse] at hp
          cases hpa : parse env fuel t.toValue s <;> rw [hpa] at hp <;> simp at hp
          rename_i va s1
          rw [substVal_flat, normalize_flat] at hp
          cases hpb : parse env fuel r.toValue s1 <;> rw [hpb] at hp <;> simp at hp
          rename_i vb s2
          obtain ⟨hta, hda⟩ := ih t a s va s1 hst hpa
          obtain ⟨htb, hdb⟩ := ih r b s1 vb s2 hsr hpb
          have hlen : s1.length = s.length - a := by rw [hda, List.length_drop]
          constructor
          · omega
          · rw [← hp.2, hdb, hda, List.drop_drop, ← hsz]

end DepCore

namespace DepCore

/-- C1: for every dependent record type `(ℓ, x, τ); rest`, a successful
`parse` first parses the field type to a value, substitutes that value
for the binder in the tail, normalises the substituted tail, recursively
parses it, and returns a record value with the same label and field
order. The witness instantiates this at
`struct { len: U8, data: Array len U8 }` on the bytes
`[03, 0A, 0B, 0C, 63]`, where the `data` field has exactly the three
elements `0x0A, 0x0B, 0x0C` and the byte at offset 4 is not consumed. -/
theorem c1_dependent_record_parse (env : TcEnv) (fuel : Nat) (l x : String)
    (ann body : Value) (s : List Byte) (v : Value) (s' : List Byte)
    (h : parse env (fuel + 1) (.recordType l x ann body) s = .ok v s') :
    ∃ va s1 vb,
      parse env fuel ann s = .ok va s1
      ∧ parse env fuel (normalize env (substVal x va body)) s1 = .ok vb s'
      ∧ v = .record l x va vb := by
  simp only [parse] at h
  cases hpa : parse env fuel ann s <;> rw [hpa] at h <;> simp at h
  rename_i va s1
  cases hpb : parse env fuel (normalize env (substVal x va body)) s1 <;>
    rw [hpb] at h <;> simp at h
  rename_i vb s2
  exact ⟨va, s1, vb, rfl, h.2 ▸ hpb, h.1.symm⟩

/-- C1 witness: the dependent-size roundtrip at
`struct { len: U8, data: Array len U8 }` on `[03, 0A, 0B, 0C, 63]`:
`len` parses to `3`, `data` to the three bytes `0x0A, 0x0B, 0x0C`, and
the trailing byte `0x63` is left in the source. -/
theorem c1_dependent_record_parse_witness :
    parse [] 5 lenDataStruct [3, 10, 11, 12, 99] = .ok lenDataResult [99]
    ∧ ∃ va s1 vb,
        parse [] 4 u8V [3, 10, 11, 12, 99] = .ok va s1
        ∧ parse [] 4 (normalize [] (substVal "len" va
            (.recordType "data" "data"
              (.neutral (.head (.global "Array")) [.neutral (.head (.var "len")) [], u8V])
              .recordTypeEmpty))) s1 = .ok vb [99]
        ∧ lenDataResult = .record "len" "len" va vb :=
  ⟨rfl, c1_dependent_record_parse [] 4 "len" "len" u8V
    (.recordType "data" "data"
      (.neutral (.head (.global "Array")) [.neutral (.head (.var "len")) [], u8V])
      .recordTypeEmpty) [3, 10, 11, 12, 99] lenDataResult [99] rfl⟩

/-- C2: every primitive format in the dispatch table reads exactly the
number of bytes its name implies and lifts the result to an
arbitrary-precision integer (or float bit-pattern) literal; in
particular `U16Le` reads two bytes least-significant-first and `U16Be`
most-significant-first, so the bytes `[01, 00]` parse to `1` under
`U16Le` and to `256` under `U16Be`. -/
theorem c2_endianness (env : TcEnv) (fuel : Nat) (n : String) (w : Nat)
    (s : List Byte) (v : Value) (rest : List Byte)
    (hw : primWidth n = some w)
    (hp : parse env (fuel + 1) (.neutral (.head (.global n)) []) s = .ok v rest) :
    (w ≤ s.length ∧ rest = s.drop w ∧ ∃ l, v = Value.lit l)
    ∧ (∀ (b0 b1 : Byte) (r : List Byte),
        parse env (fuel + 1) u16leV (b0 :: b1 :: r)
          = .ok (.lit (.int ((b0.val : Int) + 256 * (b1.val : Int)))) r
        ∧ parse env (fuel + 1) u16beV (b0 :: b1 :: r)
          = .ok (.lit (.int (256 * (b0.val : Int) + (b1.val : Int)))) r)
    ∧ parse env (fuel + 1) u16leV [1, 0] = .ok (.lit (.int 1)) []
    ∧ parse env (fuel + 1) u16beV [1, 0] = .ok (.lit (.int 256)) [] := by
  refine ⟨?_, ?_, rfl, rfl⟩
  · have hp' : parsePrim n s = .ok v rest := hp
    obtain ⟨w2, hw2, hle, hdrop, hl⟩ := parsePrim_ok n s v rest hp'
    rw [hw] at hw2
    simp at hw2
    subst hw2
    exact ⟨hle, hdrop, hl⟩
  · intro b0 b1 r
    constructor
    · show readUIntLit 2 true (b0 :: b1 :: r) = _
      simp [readUIntLit, readBytes, leNat]
    · show readUIntLit 2 false (b0 :: b1 :: r) = _
      simp [readUIntLit, readBytes, beNat]

/-- C2 witness: the theorem applied at `U16Le` on the bytes `[01, 00]`,
which parse to the integer `1` consuming both bytes. -/
theorem c2_endianness_witness :
    primWidth "U16Le" = some 2
    ∧ parse [] 1 (.neutral (.head (.global "U16Le")) []) [1, 0] = .ok (.lit (.int 1)) []
    ∧ (2 ≤ ([1, 0] : List Byte).length
       ∧ ([] : List Byte) = ([1, 0] : List Byte).drop 2
       ∧ ∃ l, Value.lit (.int 1) = Value.lit l) :=
  ⟨rfl, rfl, (c2_endianness [] 0 "U16Le" 2 [1, 0] (.lit (.int 1)) [] rfl rfl).1⟩

/-- C3: the interpreter does *not* return a `BadArrayLength`-style error
for out-of-range array lengths — no such variant exists. The length
literal is downcast with `to_usize().unwrap()` (marked FIXME in the
source), so a negative length, or one exceeding `usize::MAX`, panics:
the model evaluates to `panicked`, not to an error result. `toUsize`
itself is `none` on both inputs, which is what the `unwrap` trips on. -/
theorem c3_bad_array_length_panics (env : TcEnv) (s : List Byte) :
    parse env 1 (arrayV (-1) u8V) s = .panicked
    ∧ parse env 1 (arrayV (2 ^ 64) u8V) s = .panicked
    ∧ toUsize (-1) = none ∧ toUsize (2 ^ 64) = none := by
  refine ⟨rfl, ?_, rfl, ?_⟩
  · rfl
  · rfl

/-- C7 counterexample: a stuck neutral whose head is a variable is not a
format head, yet `parse` fails with the internal `UnexpectedBoundVar`
error rather than `InvalidFormat` carrying the type, contradicting the
claim's 'stuck neutrals other than format heads fail `InvalidFormat`'. -/
theorem c7_var_head_counterexample :
    parse [] 1 (.neutral (.head (.var "x")) []) []
      = .err (.internal (.unexpectedBoundVar "x"))
    ∧ parse [] 1 (.neutral (.head (.var "x")) []) []
        ≠ .err (.invalidType (.neutral (.head (.var "x")) [])) := by
  constructor
  · rfl
  · intro h
    injection h with h'
    exact ParseError.noConfusion h'

/-- C7 (amended): for every weak-head-normal type whose head is not a
primitive format constant, not the `Array` head applied to exactly two
arguments, not a dependent record type or the empty record type, *and
not a neutral with a variable head* (which raises the internal
`UnexpectedBoundVar` error instead), `parse` fails with `InvalidFormat`
carrying that type. -/
theorem c7_invalid_format (env : TcEnv) (fuel : Nat) (v : Value) (s : List Byte)
    (h : failsInvalidFormat v = true) :
    parse env (fuel + 1) v s = .err (.invalidType v) := by
  cases v
  all_goals try rfl
  · simp [failsInvalidFormat] at h
  · simp [failsInvalidFormat] at h
  · rename_i ne spine
    cases ne
    · rename_i hd
      cases hd with
      | global n =>
          rcases spine with _ | ⟨a, _ | ⟨b, _ | ⟨c, rest⟩⟩⟩
          · have hn : primWidth n = none := by
              simpa [failsInvalidFormat, Option.isNone_iff_eq_none] using h
            exact parsePrim_not_prim n s hn
          · rfl
          · have hn : ¬ n = "Array" := by
              simpa [failsInvalidFormat] using h
            simp [parse, hn]
          · rfl
      | var x => simp [failsInvalidFormat] at h
      | ext e => rfl
    · rfl
    · rfl
    · rfl

/-- C7 witness: the amended theorem applied to the universe value, a
non-format head, which fails `InvalidFormat` carrying that type. -/
theorem c7_invalid_format_witness :
    failsInvalidFormat (.universe 0) = true
    ∧ parse [] 1 (.universe 0) [] = .err (.invalidType (.universe 0)) :=
  ⟨rfl, c7_invalid_format [] 0 (.universe 0) [] rfl⟩

/-- C9: the interpreter is deterministic — the embedding is a pure
function of the byte source and the type, so any two runs on the same
inputs agree — and on every format whose size is implied by the type
alone (primitives, arrays of them, record chains of such fields) a
successful parse consumes exactly that many bytes: the rest of the
source is the `n`-byte drop of the input, with fields contiguous and
arrays `count` contiguous elements. -/
theorem c9_deterministic_sized (env : TcEnv) (fuel : Nat) (f : Flat) (n : Nat)
    (s : List Byte) (v : Value) (s' : List Byte)
    (hsz : Flat.size f = some n)
    (hp : parse env fuel f.toValue s = .ok v s') :
    (∀ r : PResult, parse env fuel f.toValue s = r → r = .ok v s')
    ∧ n ≤ s.length ∧ s' = s.drop n :=
  ⟨fun r hr => by rw [← hr, hp],
   (parse_flat env fuel f n s v s' hsz hp).1,
   (parse_flat env fuel f n s v s' hsz hp).2⟩

/-- C9 witness: `Array 2 U16Le` implies 4 bytes; parsing
`[01, 00, 02, 00, 09]` consumes exactly the first four bytes, leaving
the byte at offset 4. -/
theorem c9_deterministic_sized_witness :
    Flat.size (.arr 2 (.prim "U16Le")) = some 4
    ∧ parse [] 2 (Flat.toValue (.arr 2 (.prim "U16Le"))) [1, 0, 2, 0, 9]
        = .ok (.array [.lit (.int 1), .lit (.int 2)]) [9]
    ∧ ((∀ r : PResult,
          parse [] 2 (Flat.toValue (.arr 2 (.prim "U16Le"))) [1, 0, 2, 0, 9] = r →
          r = .ok (.array [.lit (.int 1), .lit (.int 2)]) [9])
       ∧ 4 ≤ ([1, 0, 2, 0, 9] : List Byte).length
       ∧ ([9] : List Byte) = ([1, 0, 2, 0, 9] : List Byte).drop 4) :=
  ⟨rfl, rfl, c9_deterministic_sized [] 2 (.arr 2 (.prim "U16Le")) 4 [1, 0, 2, 0, 9]
    (.array [.lit (.int 1), .lit (.int 2)]) [9] rfl rfl⟩

/-- C10: parsing `Array 0 τ` succeeds for *every* element type `τ`
whatsoever — including values that are not valid formats — returning the
empty array and consuming no bytes: with a zero count the element range
is empty, so the element type is never dispatched on and an invalid
element type goes undetected. -/
theorem c10_zero_length_array_ignores_element_type (env : TcEnv) (fuel : Nat)
    (elemTy : Value) (s : List Byte) :
    parse env (fuel + 1) (arrayV 0 elemTy) s = .ok (.array []) s := rfl

end DepCore

namespace OldCheck

/-- C4: the constrained type `{ x : u8 | x < 10 }` does *not* elaborate:
`kind_of`'s `Where` rule builds the extended environment `inner_env` but
then type-checks the predicate against the outer environment, so the
bound variable `x` is unbound and the result is
`WherePredicateType(UnboundVariable)`. The second conjunct shows the
claim (and the `K-CON` rule documented above the function, `Γ, x:τ ⊢ b :
Bool`) is right: under the environment extended with `x : u8`, the
predicate `x < 10` checks at `Bool`. -/
theorem c4_where_predicate_outer_env :
    kindOf Env.empty whereXLt10
      = .err (.wherePredicateType ⟨0, 17⟩ (.unboundVariable ⟨10, 11⟩ "x"))
    ∧ typeOf (Env.empty.extend.addBinding "x" u8T) predXLt10 = .ok (.const .bool) := by
  constructor
  · simp [kindOf, whereXLt10, predXLt10, u8T, typeOf, typeOfComparisonBinop,
      Env.lookupBinding, Env.empty, Env.extend, Env.addBinding]
  · simp [predXLt10, u8T, typeOf, typeOfComparisonBinop,
      Env.lookupBinding, Env.empty, Env.extend, Env.addBinding]

/-- C5 counterexample: a module with two independently erroring items
yields only the *first* diagnostic — `check_defs` returns the first
item's error and never reaches the second, whose error (shown by the
second conjunct) differs. Errors are thrown, not collected. -/
theorem c5_first_error_only_counterexample :
    checkDefs Env.empty [⟨"A", .var ⟨0, 3⟩ "Foo"⟩, ⟨"B", .var ⟨5, 8⟩ "Bar"⟩]
      = .err (.unboundType ⟨0, 3⟩ "Foo")
    ∧ checkDefs Env.empty [⟨"B", .var ⟨5, 8⟩ "Bar"⟩]
      = .err (.unboundType ⟨5, 8⟩ "Bar") :=
  ⟨rfl, rfl⟩

/-- C5 (amended): during module elaboration errors abort rather than
being collected — when the first failing item's kind check errors,
`check_defs` returns exactly that error regardless of the remaining
items, so a module with several independent errors yields a single
diagnostic (the first). -/
theorem c5_first_error_aborts (env : Env) (d : Definition) (ds : List Definition)
    (e : KindError) (h : kindOf env d.ty = .err e) :
    checkDefs env (d :: ds) = .err e := by
  simp [checkDefs, h]

/-- C5 witness: the amended theorem applied to a two-item module whose
first item references the unbound type `Foo`. -/
theorem c5_first_error_aborts_witness :
    kindOf Env.empty (Ty.var ⟨0, 3⟩ "Foo") = .err (.unboundType ⟨0, 3⟩ "Foo")
    ∧ checkDefs Env.empty [⟨"A", .var ⟨0, 3⟩ "Foo"⟩, ⟨"B", .var ⟨5, 8⟩ "Bar"⟩]
        = .err (.unboundType ⟨0, 3⟩ "Foo") :=
  ⟨rfl, c5_first_error_aborts Env.empty ⟨"A", .var ⟨0, 3⟩ "Foo"⟩
    [⟨"B", .var ⟨5, 8⟩ "Bar"⟩] _ rfl⟩

/-- C6 counterexample: `struct { x: u8, x: u8 }` is *accepted* with kind
`Type` — elaboration performs no duplicate-label check and the checker's
error taxonomy has no `DuplicateField` variant at all (the source carries
a `TODO: prevent name shadowing?`). -/
theorem c6_duplicate_fields_accepted :
    kindOf Env.empty dupFieldStruct = .ok .type := rfl

/-- C6 (amended): the struct rule checks each field's type in the
environment extended by the previous fields and never compares labels,
so a struct with duplicate labels whose field types kind-check, such as
`struct { x: u8, x: u8 }`, kind-checks in every environment; the later
binding merely shadows the earlier one. -/
theorem c6_no_duplicate_field_check (env : Env) (sp sp1 sp2 : Span) :
    kindOf env (.struct sp [(sp1, "x", u8T), (sp2, "x", u8T)]) = .ok .type := rfl

end OldCheck

namespace BinHost

/-- C8: elaborating an array type whose size expression types to
anything other than `Int` fails with a type-mismatch error whose
expected type is `Int`: after the element type kind-checks, `kind_of`
checks the size against `host::Type::int()` and a differing found type
produces `Mismatch` with `ExpectedType::Actual(Int)`. (There are no
string literals in the host expression grammar, so the witness uses a
boolean size; any non-`Int`-typed size behaves the same.) -/
theorem c8_array_size_expected_int (ctx : Context) (gas : Nat) (elemTy : BType)
    (sizeExpr : HExpr) (found : HType)
    (helem : expectTyKind ctx gas elemTy = .ok ())
    (hsize : tyOf ctx sizeExpr = .ok found)
    (hne : found.beq intT = false) :
    kindOfB ctx gas (.array elemTy sizeExpr)
      = .err (.type (.mismatch sizeExpr found (.actual intT))) := by
  simp [kindOfB, helem, expectTy, hsize, hne]

/-- C8 witness: `[u8; true]` — a `u8` array sized by a boolean — fails
with the mismatch whose expected type is `Int` and found type `Bool`. -/
theorem c8_array_size_expected_int_witness :
    expectTyKind Context.new 0 (.const .u8) = .ok ()
    ∧ tyOf Context.new (.const (.bool true)) = .ok boolT
    ∧ HType.beq boolT intT = false
    ∧ kindOfB Context.new 0 (.array (.const .u8) (.const (.bool true)))
        = .err (.type (.mismatch (.const (.bool true)) boolT (.actual intT))) :=
  ⟨by simp [expectTyKind, expectKind, kindOfB],
   by simp [tyOf, HConst.tyConstOf, boolT],
   by simp [HType.beq, boolT, intT],
   c8_array_size_expected_int Context.new 0 (.const .u8) (.const (.bool true)) boolT
     (by simp [expectTyKind, expectKind, kindOfB])
     (by simp [tyOf, HConst.tyConstOf, boolT])
     (by simp [HType.beq, boolT, intT])⟩

end BinHost
